import Mathlib

/-!
Shallow embedding of the core of `src/main.py` (Telegram Folder Publisher):
the MarkdownV2 escaping transform, caption synthesis and per-part caption
selection, the multi-volume archive builder's failure handling, single-part
rename normalization, the runtime time-budget guard, and the sequential
chunked-delivery loop. Text is modelled as `List Char`; wall-clock instants
as `Int`; external effects (subprocess outcomes, filesystem facts, HTTP
success) as explicit parameters.
-/

namespace TelegramPublisher

/-- The backtick character, the delimiter `escape_markdown_v2` splits on
(code point 96). -/
def backtick : Char := Char.ofNat 96

/-- The newline character joining caption fragments. -/
def newline : Char := Char.ofNat 10

/-- The escape set of `escape_markdown_v2`: the characters of the Python
string `_*[]()~>#+-=|` followed by the two braces, `.` and `!`
(code points 123 and 125 are the opening and closing brace). -/
def escape_chars : List Char :=
  ['_', '*', '[', ']', '(', ')', '~', '>', '#', '+', '-', '=', '|',
   Char.ofNat 123, Char.ofNat 125, '.', '!']

/-- Python `text.split(sep)` for a one-character separator: n occurrences
of the separator yield n + 1 parts, and the empty string yields one empty
part. -/
def splitOnChar (sep : Char) : List Char → List (List Char)
  | [] => [[]]
  | c :: cs =>
    match splitOnChar sep cs with
    | [] => [[c]]
    | p :: ps => if c = sep then [] :: p :: ps else (c :: p) :: ps

/-- Python `sep.join(parts)` for a one-character separator. -/
def pyJoin (sep : Char) : List (List Char) → List Char
  | [] => []
  | [p] => p
  | p :: q :: ps => p ++ sep :: pyJoin sep (q :: ps)

/-- The regex substitution of `escape_markdown_v2`:
`re.sub('([escape_chars])', backslash + match, part)` puts exactly one
backslash immediately before each occurrence of an escape-set character. -/
def escapePlain : List Char → List Char
  | [] => []
  | c :: cs =>
    if c ∈ escape_chars then '\\' :: c :: escapePlain cs
    else c :: escapePlain cs

/-- The enumeration loop of `escape_markdown_v2`: parts at even index are
escaped with `escapePlain`, parts at odd index are appended unchanged. -/
def escapeAlternating : Nat → List (List Char) → List (List Char)
  | _, [] => []
  | i, p :: ps =>
    (if i % 2 = 0 then escapePlain p else p) :: escapeAlternating (i + 1) ps

/-- Function `escape_markdown_v2` of src/main.py: split the text on the backtick,
escape the runs at even split-index, keep the runs at odd split-index,
and rejoin with the backtick. -/
def escape_markdown_v2 (text : List Char) : List Char :=
  pyJoin backtick (escapeAlternating 0 (splitOnChar backtick text))

/-- String-valued wrapper of `escape_markdown_v2`, as `send_document`
applies it to the caption. -/
def escape_markdown_v2_string (s : String) : String :=
  String.mk (escape_markdown_v2 s.data)

/-- The second element of `full_caption_parts` in `main`: the f-string
`"\nLatest Update: `jalali | utc UTC`"` with its leading newline. -/
def latest_update_fragment (jalali_str utc_str : List Char) : List Char :=
  ("\nLatest Update: `").data ++ jalali_str ++ (" | ").data ++ utc_str
    ++ (" UTC`").data

/-- The third element of `full_caption_parts` in `main`: the f-string
`"\n" + channel_handle`, non-empty even when the handle is empty. -/
def handle_fragment (channel_handle : List Char) : List Char :=
  ("\n").data ++ channel_handle

/-- Variable `full_caption` in `main`: join the truthy (non-empty) elements of
`[base_text, latest_update_fragment, handle_fragment]` with one newline. -/
def full_caption (base_text channel_handle jalali_str utc_str : List Char) :
    List Char :=
  pyJoin newline
    (([base_text,
       latest_update_fragment jalali_str utc_str,
       handle_fragment channel_handle]).filter (fun p => !p.isEmpty))

/-- The caption as claim C2 reads the spec, for comparison with
`full_caption`: the non-empty elements of template, a line
`Latest Update: ...` and the channel handle, joined with single newlines
and carrying no leading newline of their own. -/
def full_caption_claimed
    (base_text channel_handle jalali_str utc_str : List Char) : List Char :=
  pyJoin newline
    (([base_text,
       ("Latest Update: `").data ++ jalali_str ++ (" | ").data ++ utc_str
         ++ (" UTC`").data,
       channel_handle]).filter (fun p => !p.isEmpty))

/-- The per-part caption choice of `main`'s upload loop: part 0 gets the
full caption, with `" (Part 1/total)"` appended when there is more than
one part; every later part i gets
`basename ++ " (Part i+1/total)"`. -/
def current_caption (full_caption_text output_archive_basename : List Char)
    (i total_parts : Nat) : List Char :=
  if i = 0 then
    if total_parts > 1 then
      full_caption_text ++ (" (Part ").data ++ (toString (i + 1)).data
        ++ ("/").data ++ (toString total_parts).data ++ (")").data
    else full_caption_text
  else
    output_archive_basename ++ (" (Part ").data ++ (toString (i + 1)).data
      ++ ("/").data ++ (toString total_parts).data ++ (")").data

/-- The `runtime` section of `preferences.json`; only the key the
`RuntimeManager` reads is modelled. -/
structure RuntimeConfig where
  max_execution_seconds : Option Int
deriving DecidableEq

/-- The configuration document as far as the `RuntimeManager` reads it:
`config.get('runtime', {})` is an optional section. -/
structure Config where
  runtime : Option RuntimeConfig
deriving DecidableEq

/-- The state of the `RuntimeManager`: the run's start instant, the
configured ceiling, and the sticky `time_exceeded` flag. -/
structure RuntimeManager where
  start_time : Int
  max_seconds : Int
  time_exceeded : Bool
deriving DecidableEq

/-- Constructor `RuntimeManager.__init__`: the ceiling is
`config.get('runtime', {}).get('max_execution_seconds', 3300)` and the
sticky flag starts false. -/
def RuntimeManager.init (start_time : Int) (config : Config) :
    RuntimeManager :=
  { start_time := start_time
    max_seconds :=
      (config.runtime.bind RuntimeConfig.max_execution_seconds).getD 3300
    time_exceeded := false }

/-- Method `RuntimeManager.is_time_exceeded`, with the mutation made explicit:
returns the boolean answer and the updated manager. Already-tripped
managers answer true at once; otherwise the elapsed time
`now - start_time` is compared with the ceiling and the flag is set on
the first trip. -/
def RuntimeManager.is_time_exceeded (rm : RuntimeManager) (now : Int) :
    Bool × RuntimeManager :=
  if rm.time_exceeded then (true, rm)
  else if now - rm.start_time > rm.max_seconds then
    (true, { rm with time_exceeded := true })
  else (false, rm)

/-- A run of consecutive `is_time_exceeded` calls at the given sequence of
current-time samples, collecting the answers and threading the state. -/
def query_all : RuntimeManager → List Int → List Bool × RuntimeManager
  | rm, [] => ([], rm)
  | rm, t :: ts =>
    ((rm.is_time_exceeded t).fst
        :: (query_all (rm.is_time_exceeded t).snd ts).fst,
      (query_all (rm.is_time_exceeded t).snd ts).snd)

/-- The outcome the delivery loop records for an attempted part: the code
either sends a part successfully or breaks on the first failure; parts
after a break are never attempted and get no outcome. -/
inductive DeliveryOutcome where
  | delivered
  | failed
deriving DecidableEq

/-- The upload loop of `main` (step 6): before each part the
`RuntimeManager` is consulted (the loop breaks when it reports exceeded),
then the part is sent; on send failure the loop breaks at once. `send`
models the transport's success per part path, `clock i` the current time
at the i-th guard check, and the returned list pairs each attempted part
with its outcome in order. -/
def send_loop (send : String → Bool) (clock : Nat → Int) :
    RuntimeManager → Nat → List String → List (String × DeliveryOutcome)
  | _, _, [] => []
  | rm, i, chunk :: rest =>
    if (rm.is_time_exceeded (clock i)).fst then []
    else if send chunk then
      (chunk, DeliveryOutcome.delivered)
        :: send_loop send clock (rm.is_time_exceeded (clock i)).snd (i + 1)
            rest
    else [(chunk, DeliveryOutcome.failed)]

/-- How the `subprocess.run` invocation of 7-Zip can end, as
`create_multivolume_archive` distinguishes the cases: the executable is
missing, it exits non-zero, an unexpected exception occurs, or it
completes with captured stdout. -/
inductive SubprocessResult where
  | file_not_found
  | called_process_error (returncode : Int) (stderr : String)
  | unexpected_error (msg : String)
  | completed (stdout : String)
deriving DecidableEq

/-- Function `create_multivolume_archive` of src/main.py with its environment made
explicit: whether the source is a directory, how the 7-Zip invocation
ends, the sorted glob of `name.*` volume files afterwards, and whether
the bare output path exists. Every failure branch returns the empty
list; no exception escapes. -/
def create_multivolume_archive (is_dir : Bool)
    (run_result : SubprocessResult) (glob_parts : List String)
    (bare_output_exists : Bool) (archive_output_path : String) :
    List String :=
  if !is_dir then []
  else
    match run_result with
    | SubprocessResult.file_not_found => []
    | SubprocessResult.called_process_error _ _ => []
    | SubprocessResult.unexpected_error _ => []
    | SubprocessResult.completed _ =>
      if glob_parts.isEmpty then
        if bare_output_exists then [archive_output_path] else []
      else glob_parts

/-- Step 4 of `main`: when exactly one archive chunk was produced and its
name ends in the first-volume marker, rename it to the bare target path;
`rename_ok` models whether `Path.rename` raises `OSError`, in which case
the chunk list is left as it was. -/
def normalize_single_part (rename_ok : Bool) (target_path : String)
    (archive_chunks : List String) : List String :=
  match archive_chunks with
  | [single_part] =>
    if single_part.endsWith (".001") then
      if rename_ok then [target_path] else [single_part]
    else [single_part]
  | other => other

/-- The externally visible steps `TelegramPoster.send_document` takes
after its existence check: escaping the caption, then one HTTP POST of
the escaped caption to the sendDocument endpoint. -/
inductive SendEffect where
  | escape_caption (caption : String)
  | http_post (escaped_caption : String)
deriving DecidableEq

/-- Method `TelegramPoster.send_document` with its environment explicit:
`file_on_disk` is `file_path.exists()` and `post_ok` whether the HTTP
POST succeeds with a 2xx status. Returns the boolean result and the
ordered trace of steps taken; a missing file returns False with no step
taken. -/
def send_document (file_on_disk : Bool) (post_ok : Bool)
    (caption : String) : Bool × List SendEffect :=
  if !file_on_disk then (false, [])
  else
    (post_ok,
      [SendEffect.escape_caption caption,
       SendEffect.http_post (escape_markdown_v2_string caption)])

theorem splitOnChar_ne_nil (sep : Char) (l : List Char) :
    splitOnChar sep l ≠ [] := by
  induction l with
  | nil => simp [splitOnChar]
  | cons c cs ih =>
    cases h : splitOnChar sep cs with
    | nil => exact absurd h ih
    | cons p ps =>
      simp only [splitOnChar, h]
      split <;> simp

theorem mem_splitOnChar_not_mem (sep : Char) (l : List Char) :
    ∀ p ∈ splitOnChar sep l, sep ∉ p := by
  induction l with
  | nil =>
    intro p hp
    simp [splitOnChar] at hp
    simp [hp]
  | cons c cs ih =>
    intro p hp
    cases h : splitOnChar sep cs with
    | nil => exact absurd h (splitOnChar_ne_nil sep cs)
    | cons q qs =>
      simp only [splitOnChar, h] at hp
      by_cases hc : c = sep
      · simp only [if_pos hc, List.mem_cons] at hp
        rcases hp with hp | hp | hp
        · simp [hp]
        · exact hp ▸ ih q (h ▸ List.mem_cons_self q qs)
        · exact ih p (h ▸ List.mem_cons_of_mem q hp)
      · simp only [if_neg hc, List.mem_cons] at hp
        rcases hp with hp | hp
        · subst hp
          intro hmem
          rcases List.mem_cons.mp hmem with he | he
          · exact hc he.symm
          · exact ih q (h ▸ List.mem_cons_self q qs) he
        · exact ih p (h ▸ List.mem_cons_of_mem q hp)

theorem splitOnChar_of_not_mem (sep : Char) (l : List Char)
    (h : sep ∉ l) : splitOnChar sep l = [l] := by
  induction l with
  | nil => rfl
  | cons c cs ih =>
    have hc : c ≠ sep := fun e => h (e ▸ List.mem_cons_self c cs)
    have hcs : sep ∉ cs := fun e => h (List.mem_cons_of_mem c e)
    simp only [splitOnChar, ih hcs]
    simp [fun e => hc e]

theorem splitOnChar_append_sep (sep : Char) (p rest : List Char)
    (h : sep ∉ p) :
    splitOnChar sep (p ++ sep :: rest) = p :: splitOnChar sep rest := by
  induction p with
  | nil =>
    cases hr : splitOnChar sep rest with
    | nil => exact absurd hr (splitOnChar_ne_nil sep rest)
    | cons q qs => simp [splitOnChar, hr]
  | cons c cs ih =>
    have hc : c ≠ sep := fun e => h (e ▸ List.mem_cons_self c cs)
    have hcs : sep ∉ cs := fun e => h (List.mem_cons_of_mem c e)
    rw [List.cons_append, splitOnChar, ih hcs]
    simp [fun e => hc e]

theorem splitOnChar_pyJoin (sep : Char) (parts : List (List Char))
    (hne : parts ≠ []) (h : ∀ p ∈ parts, sep ∉ p) :
    splitOnChar sep (pyJoin sep parts) = parts := by
  induction parts with
  | nil => exact absurd rfl hne
  | cons p ps ih =>
    cases ps with
    | nil =>
      simp only [pyJoin]
      exact splitOnChar_of_not_mem sep p (h p (List.mem_cons_self p []))
    | cons q qs =>
      rw [pyJoin,
        splitOnChar_append_sep sep p _ (h p (List.mem_cons_self p _)),
        ih (by simp) (fun r hr => h r (List.mem_cons_of_mem p hr))]

theorem not_mem_escapePlain (c : Char) (p : List Char) (hc : c ≠ '\\')
    (hp : c ∉ p) : c ∉ escapePlain p := by
  induction p with
  | nil => simp [escapePlain]
  | cons d ds ih =>
    have hd : c ≠ d := fun e => hp (e ▸ List.mem_cons_self d ds)
    have hds : c ∉ ds := fun e => hp (List.mem_cons_of_mem d e)
    simp only [escapePlain]
    split <;> simp [hc, hd, ih hds]

theorem escapeAlternating_length (i : Nat) (ps : List (List Char)) :
    (escapeAlternating i ps).length = ps.length := by
  induction ps generalizing i with
  | nil => rfl
  | cons p ps ih => simp [escapeAlternating, ih]

theorem mem_escapeAlternating (i : Nat) (ps : List (List Char)) :
    ∀ q ∈ escapeAlternating i ps, ∃ p ∈ ps, q = p ∨ q = escapePlain p := by
  induction ps generalizing i with
  | nil => intro q hq; simp [escapeAlternating] at hq
  | cons p ps ih =>
    intro q hq
    simp only [escapeAlternating, List.mem_cons] at hq
    rcases hq with hq | hq
    · refine ⟨p, List.mem_cons_self p ps, ?_⟩
      subst hq
      split <;> simp
    · obtain ⟨r, hr, hqr⟩ := ih (i + 1) q hq
      exact ⟨r, List.mem_cons_of_mem p hr, hqr⟩

theorem escapeAlternating_get? (ps : List (List Char)) :
    ∀ i k, (escapeAlternating i ps).get? k
      = if (i + k) % 2 = 0 then (ps.get? k).map escapePlain
        else ps.get? k := by
  induction ps with
  | nil =>
    intro i k
    simp only [escapeAlternating, List.get?_nil, Option.map_none']
    split <;> rfl
  | cons p ps ih =>
    intro i k
    cases k with
    | zero =>
      by_cases h : i % 2 = 0 <;>
        simp [escapeAlternating, h, Nat.add_zero]
    | succ k =>
      have harith : i + (k + 1) = i + 1 + k := by omega
      simp only [escapeAlternating, List.get?_cons_succ, ih (i + 1) k,
        harith]

theorem splitOnChar_escape (text : List Char) :
    splitOnChar backtick (escape_markdown_v2 text)
      = escapeAlternating 0 (splitOnChar backtick text) := by
  unfold escape_markdown_v2
  apply splitOnChar_pyJoin
  · intro he
    have hl := escapeAlternating_length 0 (splitOnChar backtick text)
    rw [he] at hl
    exact splitOnChar_ne_nil backtick text
      (List.length_eq_zero.mp hl.symm)
  · intro q hq
    obtain ⟨p, hp, hq' | hq'⟩ :=
      mem_escapeAlternating 0 (splitOnChar backtick text) q hq
    · exact hq' ▸ mem_splitOnChar_not_mem backtick text p hp
    · exact hq' ▸ not_mem_escapePlain backtick p (by decide)
        (mem_splitOnChar_not_mem backtick text p hp)

/-- C1: the escaping function splits on the backtick, escapes the runs at
even split-index by putting one backslash before each escape-set
character (`escapePlain`) and keeps the runs at odd split-index, and
rejoins with the backtick: the backtick-split of the output equals the
alternating transform of the input's runs, the runs at odd split-index
(content inside a pair of backticks) are unaltered in the output, and on
the spec's example the result is exactly the quoted string. -/
theorem C1_escape_markdown_v2 (text : List Char) :
    splitOnChar backtick (escape_markdown_v2 text)
        = escapeAlternating 0 (splitOnChar backtick text)
    ∧ (∀ k, k % 2 = 1 →
        (splitOnChar backtick (escape_markdown_v2 text)).get? k
          = (splitOnChar backtick text).get? k)
    ∧ escape_markdown_v2 ("Hello_World. `code_here`!").data
        = ("Hello\\_World\\. `code_here`\\!").data := by
  refine ⟨splitOnChar_escape text, ?_, by decide⟩
  intro k hk
  rw [splitOnChar_escape text, escapeAlternating_get? _ 0 k,
    if_neg (by omega)]

theorem splitOnChar_length (sep : Char) (l : List Char) :
    (splitOnChar sep l).length = l.count sep + 1 := by
  induction l with
  | nil => simp [splitOnChar]
  | cons c cs ih =>
    cases h : splitOnChar sep cs with
    | nil => exact absurd h (splitOnChar_ne_nil sep cs)
    | cons q qs =>
      have ih2 : qs.length + 1 = cs.count sep + 1 := by
        rw [h] at ih
        simpa using ih
      by_cases hc : c = sep
      · simp only [splitOnChar, h, if_pos hc, hc, List.count_cons,
          List.length_cons]
        simp
        omega
      · simp only [splitOnChar, h, if_neg hc, List.count_cons,
          List.length_cons]
        simp [hc, Ne.symm hc]
        omega

/-- C3 counterexample: the input has an odd number of backticks (one), yet
the escaping function returns it unchanged: the escape-set character in
the final run is NOT backslash-prefixed, so the final run is not treated
as plain. -/
theorem C3_counterexample :
    (("x`.").data.count backtick) % 2 = 1
    ∧ escape_markdown_v2 (("x`.").data) = ("x`.").data
    ∧ ("x`.").data ≠ ("x`\\.").data := by decide

/-- C3 amended: for a caption with an odd total number of backticks the
final run sits at split-index `count = length - 1`, an odd index, so the
escaping function classifies it as verbatim and leaves it unchanged
(escape-set characters in it are not backslash-prefixed). -/
theorem C3_odd_backticks_final_run (text : List Char)
    (h : text.count backtick % 2 = 1) :
    (splitOnChar backtick text).length = text.count backtick + 1
    ∧ (splitOnChar backtick (escape_markdown_v2 text)).get?
          (text.count backtick)
        = (splitOnChar backtick text).get? (text.count backtick) := by
  refine ⟨splitOnChar_length backtick text, ?_⟩
  rw [splitOnChar_escape text,
    escapeAlternating_get? _ 0 (text.count backtick), if_neg (by omega)]

/-- C3 witness: the amended statement evaluated at the concrete input with
one backtick. -/
theorem C3_odd_backticks_final_run_witness :
    (splitOnChar backtick (("x`.").data)).length
        = (("x`.").data.count backtick) + 1
    ∧ (splitOnChar backtick (escape_markdown_v2 (("x`.").data))).get?
          (("x`.").data.count backtick)
        = (splitOnChar backtick (("x`.").data)).get?
            (("x`.").data.count backtick) :=
  C3_odd_backticks_final_run (("x`.").data) (by decide)

theorem latest_update_fragment_cons (j u : List Char) :
    latest_update_fragment j u
      = newline :: ((("Latest Update: `").data ++ j ++ (" | ").data ++ u
          ++ (" UTC`").data)) := by
  simp [latest_update_fragment, newline, List.append_assoc]

theorem handle_fragment_cons (ch : List Char) :
    handle_fragment ch = newline :: ch := by
  simp [handle_fragment, newline]

/-- C2 counterexample: with template "A", empty channel handle and
timestamp strings "J" and "U", the code's caption is not the claim's
caption: the code keeps the always-non-empty newline-prefixed handle
fragment (producing a trailing newline for an empty handle) and separates
fragments by two newlines, not one. -/
theorem C2_counterexample :
    full_caption (("A").data) [] (("J").data) (("U").data)
      ≠ full_caption_claimed (("A").data) [] (("J").data) (("U").data) := by
  decide

/-- C2 amended: the caption joins the truthy elements of
`[template, "\n" ++ update line, "\n" ++ handle]` with one newline; the
last two fragments begin with their own newline and are never empty, so
the caption is the template followed by a newline when the template is
non-empty, then one more newline, the `Latest Update` line, and two
newlines followed by the channel handle — the handle fragment appears
(as a trailing newline) even when the handle is empty. -/
theorem C2_caption_assembly
    (base_text channel_handle jalali_str utc_str : List Char) :
    full_caption base_text channel_handle jalali_str utc_str
      = (if base_text.isEmpty then [] else base_text ++ [newline])
        ++ newline
          :: ((("Latest Update: `").data ++ jalali_str ++ (" | ").data
              ++ utc_str ++ (" UTC`").data)
            ++ newline :: newline :: channel_handle) := by
  cases base_text with
  | nil =>
    simp only [full_caption, latest_update_fragment_cons,
      handle_fragment_cons]
    simp [pyJoin, List.append_assoc]
  | cons b bs =>
    simp only [full_caption, latest_update_fragment_cons,
      handle_fragment_cons]
    simp [pyJoin, List.append_assoc]

/-- C4: the per-part caption of the upload loop: one single part gets the
full caption unmodified; with more than one part, part 0 gets the full
caption followed by " (Part 1/total)"; every part of index i > 0 gets the
archive base name followed by " (Part i+1/total)". -/
theorem C4_part_captions
    (full_caption_text output_archive_basename : List Char)
    (i total_parts : Nat) :
    (total_parts = 1 →
      current_caption full_caption_text output_archive_basename 0
          total_parts
        = full_caption_text)
    ∧ (total_parts > 1 →
      current_caption full_caption_text output_archive_basename 0
          total_parts
        = full_caption_text ++ (" (Part 1/").data
            ++ (toString total_parts).data ++ (")").data)
    ∧ (i > 0 →
      current_caption full_caption_text output_archive_basename i
          total_parts
        = output_archive_basename ++ (" (Part ").data
            ++ (toString (i + 1)).data ++ ("/").data
            ++ (toString total_parts).data ++ (")").data) := by
  refine ⟨?_, ?_, ?_⟩
  · intro h
    subst h
    simp [current_caption]
  · intro h
    have hseg : ∀ rest : List Char,
        (" (Part ").data
            ++ ((toString (0 + 1 : Nat)).data ++ (("/").data ++ rest))
          = (" (Part 1/").data ++ rest := by
      intro rest
      have h1 : (toString (0 + 1 : Nat)).data = ['1'] := by decide
      rw [h1]
      rfl
    simp only [current_caption]
    rw [if_pos trivial, if_pos h]
    simp only [List.append_assoc]
    rw [hseg]
  · intro h
    simp only [current_caption]
    rw [if_neg (by omega : ¬ i = 0)]

theorem is_time_exceeded_of_flag (rm : RuntimeManager) (t : Int)
    (h : rm.time_exceeded = true) : rm.is_time_exceeded t = (true, rm) := by
  simp [RuntimeManager.is_time_exceeded, h]

theorem is_time_exceeded_not_over (rm : RuntimeManager) (t : Int)
    (hflag : rm.time_exceeded = false)
    (hle : t - rm.start_time ≤ rm.max_seconds) :
    rm.is_time_exceeded t = (false, rm) := by
  simp [RuntimeManager.is_time_exceeded, hflag, not_lt.mpr hle]

theorem is_time_exceeded_snd_flag (rm : RuntimeManager) (t : Int)
    (h : (rm.is_time_exceeded t).fst = true) :
    (rm.is_time_exceeded t).snd.time_exceeded = true := by
  unfold RuntimeManager.is_time_exceeded at h ⊢
  by_cases hf : rm.time_exceeded = true
  · simp [hf]
  · simp only [hf, if_false, Bool.false_eq_true] at h ⊢
    by_cases hc : t - rm.start_time > rm.max_seconds
    · simp [hc]
    · simp [hc] at h

theorem query_all_flag_true (rm : RuntimeManager) (ts : List Int)
    (h : rm.time_exceeded = true) :
    (query_all rm ts).fst = ts.map (fun _ => true) := by
  induction ts generalizing rm with
  | nil => simp [query_all]
  | cons t ts ih =>
    simp only [query_all, List.map, is_time_exceeded_of_flag rm t h]
    simp [ih rm h]

/-- C9: the guard is sticky: in any run of consecutive `is_time_exceeded`
calls, a true answer at position i forces a true answer at every later
position j, whatever current times the later calls sample (no
un-tripping); and the ceiling defaults to 3300 seconds whenever the
configuration does not carry `runtime.max_execution_seconds`. -/
theorem C9_sticky_guard_and_default :
    (∀ (rm : RuntimeManager) (ts : List Int) (i j : Nat), i < j →
        j < ts.length →
        (query_all rm ts).fst.get? i = some true →
        (query_all rm ts).fst.get? j = some true)
    ∧ (∀ (s : Int) (c : Config),
        c.runtime.bind RuntimeConfig.max_execution_seconds = none →
        (RuntimeManager.init s c).max_seconds = 3300) := by
  constructor
  · intro rm ts
    induction ts generalizing rm with
    | nil =>
      intro i j hij hj hi
      simp at hj
    | cons t ts ih =>
      intro i j hij hj hi
      simp only [query_all] at hi ⊢
      cases i with
      | zero =>
        simp only [List.get?_cons_zero, Option.some_inj] at hi
        obtain ⟨j2, rfl⟩ : ∃ j2, j = j2 + 1 := ⟨j - 1, by omega⟩
        have hlt : j2 < ts.length := by
          simp only [List.length_cons] at hj
          omega
        simp only [List.get?_cons_succ]
        rw [query_all_flag_true _ ts (is_time_exceeded_snd_flag rm t hi),
          List.get?_map, List.get?_eq_get hlt]
        rfl
      | succ i2 =>
        obtain ⟨j2, rfl⟩ : ∃ j2, j = j2 + 1 := ⟨j - 1, by omega⟩
        simp only [List.get?_cons_succ] at hi ⊢
        have hlt : j2 < ts.length := by
          simp only [List.length_cons] at hj
          omega
        exact ih _ i2 j2 (by omega) hlt hi
  · intro s c h
    simp [RuntimeManager.init, h]

/-- C5: when the time budget never trips, a failed delivery of part k
stops the loop at once: every part before k is delivered, part k is
attempted once and recorded failed, and no part after k appears in the
outcome list at all. -/
theorem C5_abort_on_failure (send : String → Bool) (clock : Nat → Int)
    (rm : RuntimeManager) (start_index k : Nat) (chunks : List String)
    (hflag : rm.time_exceeded = false)
    (hclock : ∀ n, clock n - rm.start_time ≤ rm.max_seconds)
    (hk : k < chunks.length)
    (hok : ∀ j, j < k → send (chunks.getD j ("")) = true)
    (hfail : send (chunks.getD k ("")) = false) :
    send_loop send clock rm start_index chunks
      = (chunks.take k).map (fun c => (c, DeliveryOutcome.delivered))
        ++ [(chunks.getD k (""), DeliveryOutcome.failed)] := by
  induction chunks generalizing k start_index with
  | nil => simp at hk
  | cons c cs ih =>
    have hstep : rm.is_time_exceeded (clock start_index) = (false, rm) :=
      is_time_exceeded_not_over rm _ hflag (hclock start_index)
    cases k with
    | zero =>
      simp only [List.getD_cons_zero] at hfail
      simp [send_loop, hstep, hfail]
    | succ k2 =>
      have hsend : send c = true := by
        have h0 := hok 0 (Nat.succ_pos k2)
        simpa using h0
      have hrest := ih (start_index + 1) k2
        (by simpa using hk)
        (fun j hj => by simpa using hok (j + 1) (by omega))
        (by simpa using hfail)
      simp [send_loop, hstep, hsend, hrest]

/-- C5 witness: three parts, transport succeeding only on the first:
part 0 is delivered, part 1 fails, part 2 is never attempted. -/
theorem C5_abort_on_failure_witness :
    send_loop (fun c => c == ("part1")) (fun _ => 0)
        (RuntimeManager.mk 0 3300 false) 0
        [("part1"), ("part2"), ("part3")]
      = (([("part1"), ("part2"), ("part3")]).take 1).map
          (fun c => (c, DeliveryOutcome.delivered))
        ++ [((([("part1"), ("part2"), ("part3")]).getD 1 ("")),
            DeliveryOutcome.failed)] :=
  C5_abort_on_failure (fun c => c == ("part1")) (fun _ => 0)
    (RuntimeManager.mk 0 3300 false) 0 1
    [("part1"), ("part2"), ("part3")] rfl (fun n => by norm_num)
    (by decide)
    (fun j hj => by
      have hj0 : j = 0 := by omega
      subst hj0
      decide)
    (by decide)

/-- C6: the guard is consulted before each part: the attempted parts
always form a prefix of the ordered chunk list (so the undelivered parts
are a contiguous suffix); when the guard reports exceeded before a part,
the loop delivers nothing from that point on; and a guard whose start
time lies 11 seconds in the past with a 10-second ceiling reports
exceeded on its very first check. -/
theorem C6_time_budget_guard (send : String → Bool) (clock : Nat → Int)
    (rm : RuntimeManager) (start_index : Nat) (chunks : List String) :
    (send_loop send clock rm start_index chunks).map Prod.fst
        = chunks.take (send_loop send clock rm start_index chunks).length
    ∧ ((rm.is_time_exceeded (clock start_index)).fst = true →
        send_loop send clock rm start_index chunks = [])
    ∧ ((RuntimeManager.mk 0 10 false).is_time_exceeded 11).fst = true := by
  refine ⟨?_, ?_, by decide⟩
  · induction chunks generalizing rm start_index with
    | nil => simp [send_loop]
    | cons c cs ih =>
      by_cases hex : (rm.is_time_exceeded (clock start_index)).fst = true
      · simp [send_loop, hex]
      · by_cases hs : send c = true
        · simp [send_loop, hex, hs, ih]
        · simp [send_loop, hex, hs]
  · intro h
    cases chunks with
    | nil => rfl
    | cons c cs => simp [send_loop, h]

/-- C6 witness: with the backdated guard of the scenario (ceiling 10s,
start 11s in the past at the first check), zero parts are delivered. -/
theorem C6_time_budget_guard_witness :
    send_loop (fun _ => true) (fun _ => 11)
        (RuntimeManager.mk 0 10 false) 0 [("a"), ("b")] = [] :=
  (C6_time_budget_guard (fun _ => true) (fun _ => 11)
      (RuntimeManager.mk 0 10 false) 0 [("a"), ("b")]).2.1 (by decide)

/-- C7: the archive builder returns the empty list on every failure
condition and, being a total function of its environment, propagates no
exception: source not a directory, compressor executable missing,
compressor exiting non-zero, an unexpected invocation error, and a
completed run that left neither suffixed volume files nor the bare
output file. -/
theorem C7_archive_builder_failures (run_result : SubprocessResult)
    (glob_parts : List String) (bare_output_exists : Bool)
    (path : String) :
    create_multivolume_archive false run_result glob_parts
        bare_output_exists path = []
    ∧ create_multivolume_archive true SubprocessResult.file_not_found
        glob_parts bare_output_exists path = []
    ∧ (∀ (code : Int) (err : String),
        create_multivolume_archive true
          (SubprocessResult.called_process_error code err) glob_parts
          bare_output_exists path = [])
    ∧ (∀ msg : String,
        create_multivolume_archive true
          (SubprocessResult.unexpected_error msg) glob_parts
          bare_output_exists path = [])
    ∧ (∀ out : String,
        create_multivolume_archive true (SubprocessResult.completed out)
          [] false path = []) := by
  refine ⟨?_, ?_, ?_, ?_, ?_⟩ <;> simp [create_multivolume_archive]

/-- C8: exactly the single-part lists whose element carries the ".001"
first-volume marker are renamed to the bare output path; a failing
rename keeps the original suffixed name, and any other chunk list is
left untouched. -/
theorem C8_single_part_rename (rename_ok : Bool) (target_path : String) :
    (∀ single_part : String, single_part.endsWith (".001") = true →
        normalize_single_part true target_path [single_part]
          = [target_path])
    ∧ (∀ single_part : String, single_part.endsWith (".001") = true →
        normalize_single_part false target_path [single_part]
          = [single_part])
    ∧ (∀ single_part : String, single_part.endsWith (".001") = false →
        normalize_single_part rename_ok target_path [single_part]
          = [single_part])
    ∧ (∀ chunks : List String, chunks.length ≠ 1 →
        normalize_single_part rename_ok target_path chunks = chunks) := by
  refine ⟨?_, ?_, ?_, ?_⟩
  · intro p h
    simp [normalize_single_part, h]
  · intro p h
    simp [normalize_single_part, h]
  · intro p h
    simp [normalize_single_part, h]
  · intro chunks h
    cases chunks with
    | nil => rfl
    | cons c cs =>
      cases cs with
      | nil => simp at h
      | cons c2 cs2 => rfl

/-- C10: when the file to send does not exist, `send_document` returns
False with an empty step trace: the caption is never escaped and no HTTP
POST is made. -/
theorem C10_missing_file (post_ok : Bool) (caption : String) :
    send_document false post_ok caption = (false, [])
    ∧ ∀ e : SendEffect, e ∉ (send_document false post_ok caption).snd := by
  constructor <;> simp [send_document]

end TelegramPublisher
